import Mathlib

/-!
Shallow embedding of the statbot crawler pipeline (src/statbot/crawler.py) and
the message-history interval set (src/statbot/message_history.py), together
with theorems settling the specification claims about them.
-/

namespace Statbot

/-- A remote event (a Discord message or audit-log entry); only its snowflake
id matters to the crawler engine. -/
structure Event where
  id : Nat
deriving DecidableEq

/-- A source handle (channel id / guild id); sources are opaque to the
abstract crawler. -/
abbrev Source := Nat

/-- Python dict assignment `m[k] = v`: update the first (unique) binding for
`k` in insertion order, or append a new binding at the end. -/
def dictSet {α β : Type} [DecidableEq α] (m : List (α × β)) (k : α) (v : β) :
    List (α × β) :=
  match m with
  | [] => [(k, v)]
  | p :: rest => if p.1 = k then (k, v) :: rest else p :: dictSet rest k v

/-- Python dict lookup `m.get(k)`. -/
def dictGet {α β : Type} [DecidableEq α] (m : List (α × β)) (k : α) : Option β :=
  match m with
  | [] => none
  | p :: rest => if p.1 = k then some p.2 else dictGet rest k

/-- Python dict removal `m.pop(k, None)` / SQL row deletion by key. -/
def dictPop {α β : Type} [DecidableEq α] (m : List (α × β)) (k : α) :
    List (α × β) :=
  m.filter (fun p => decide (¬ p.1 = k))

/-- crawler.py lines 48-51: `get_last_id(objects) = max(map(lambda x: x.id,
objects))`.  Python `max` raises `ValueError` on an empty sequence, embedded
here as `none`. -/
def get_last_id (objects : List Event) : Option Nat :=
  match objects with
  | [] => none
  | e :: rest => some (rest.foldl (fun m x => Nat.max m x.id) e.id)

/-- A work item `(source, events-or-None, last_id)` as enqueued by the
producer (crawler.py lines 92 and 96). -/
abbrev QueueItem := Source × Option (List Event) × Nat

/-- The producer-visible state: the in-memory progress dict and the queue of
items enqueued (the consumer drains the front; we track items appended). -/
structure ProducerState where
  progress : List (Source × Nat)
  queue : List QueueItem
deriving DecidableEq

/-- A `read` hook: may raise (modelled as `Except.error ()`), return `none`
(stream exhausted) or a page of events. -/
abbrev ReadFn := Source → Nat → Except Unit (Option (List Event))

/-- crawler.py lines 87-99, the body of the per-source loop: read the source,
and on success enqueue a work item and advance the in-memory progress; `none`
reads enqueue the drained sentinel `nowId` and set `done`; any raised error is
caught and the accumulated state is left untouched. -/
def produceSource (nowId : Nat) (read : ReadFn) (acc : ProducerState × Bool)
    (s : Source) (last_id : Nat) : ProducerState × Bool :=
  match read s last_id with
  | .error _ => acc
  | .ok none =>
      ({ progress := dictSet acc.1.progress s nowId,
         queue := acc.1.queue ++ [(s, none, nowId)] }, true)
  | .ok (some events) =>
      match get_last_id events with
      | none => acc
      | some last =>
          ({ progress := dictSet acc.1.progress s last,
             queue := acc.1.queue ++ [(s, some events, last)] }, acc.2)

/-- One pass of the producer over a snapshot of `progress.items()`
(crawler.py line 87 takes the snapshot as a tuple before iterating). -/
def producerRoundAux (nowId : Nat) (read : ReadFn)
    (snapshot : List (Source × Nat)) (acc : ProducerState × Bool) :
    ProducerState × Bool :=
  snapshot.foldl (fun a p => produceSource nowId read a p.1 p.2) acc

/-- crawler.py lines 83-99: one full producer round, starting with
`done = False` and iterating the snapshot of the live progress dict. -/
def producerRound (nowId : Nat) (read : ReadFn) (st : ProducerState) :
    ProducerState × Bool :=
  producerRoundAux nowId read st.progress (st, false)

/-- Crawler configuration delays (crawler.py lines 80-81). -/
structure Config where
  yield_delay : Nat
  empty_source_delay : Nat
deriving DecidableEq

/-- crawler.py lines 101-106: the delay slept after a round, chosen by the
`done` flag. -/
def roundDelay (cfg : Config) (done : Bool) : Nat :=
  if done then cfg.empty_source_delay else cfg.yield_delay

/-- The durable store as seen through the generic consumer: committed events
and one committed cursor per source. -/
structure Store where
  events : List Event
  cursors : List (Source × Nat)
deriving DecidableEq

/-- A call made inside the consumer transaction scope. -/
inductive SqlCall where
  | write (events : List Event)
  | update (source : Source) (last_id : Nat)
deriving DecidableEq

/-- An abstract `write` hook: transforms the tentative store, or raises. -/
abbrev WriteFn := Store → List Event → Except Unit Store

/-- An abstract `update` hook: persists a cursor in the tentative store, or
raises. -/
abbrev UpdateFn := Store → Source → Nat → Except Unit Store

/-- crawler.py lines 116-119, the body of `with self.sql.transaction()`:
call `write` only when events are present, then `update` with the item's
carried cursor; a raised error aborts the body.  The second component records
the calls actually issued inside the transaction scope. -/
def transBody (w : WriteFn) (u : UpdateFn) (item : QueueItem) (st : Store) :
    Except Unit Store × List SqlCall :=
  match item.2.1 with
  | none => (u st item.1 item.2.2, [SqlCall.update item.1 item.2.2])
  | some evs =>
      match w st evs with
      | .error e => (.error e, [SqlCall.write evs])
      | .ok st1 =>
          (u st1 item.1 item.2.2,
           [SqlCall.write evs, SqlCall.update item.1 item.2.2])

/-- crawler.py lines 115-123: process one dequeued work item.  A transaction
that completes commits its resulting store; a raised error abandons the
transaction (the store reverts to its pre-transaction value) and is logged.
The second component counts the `task_done` calls made for this item
(line 123 runs after the try/except, unconditionally). -/
def consumerStep (w : WriteFn) (u : UpdateFn) (item : QueueItem) (st : Store) :
    Store × Nat :=
  match (transBody w u item st).1 with
  | .ok st1 => (st1, 1)
  | .error _ => (st, 1)

/-- crawler.py lines 111-123: the consumer loop processing a finite prefix of
dequeued items in FIFO order, returning the final store and the total number
of `task_done` calls. -/
def consumerRun (w : WriteFn) (u : UpdateFn) :
    List QueueItem → Store → Store × Nat
  | [], st => (st, 0)
  | item :: rest, st =>
      ((consumerRun w u rest (consumerStep w u item st).1).1,
       (consumerStep w u item st).2 +
         (consumerRun w u rest (consumerStep w u item st).1).2)

/-- A concrete always-succeeding `write` hook that appends the page to the
committed events (used to run the pipeline on concrete traces). -/
def storeWrite : WriteFn := fun st evs => .ok { st with events := st.events ++ evs }

/-- A concrete always-succeeding `update` hook persisting the cursor. -/
def storeUpdate : UpdateFn := fun st s c => .ok { st with cursors := dictSet st.cursors s c }

/-- An `update` hook that always raises (to exercise the error path). -/
def failUpdate : UpdateFn := fun _ _ _ => .error ()

/-- crawler.py lines 161-167 (`HistoryCrawler.read`): given the page fetched
from the remote client, return it if non-empty and `None` otherwise — the
hook never returns an empty list. -/
def history_read (messages : List Event) : Option (List Event) :=
  if messages.isEmpty then none else some messages

/-- A channel as the history crawler sees it: its id, owning guild id, and
whether the crawling identity has the `read_message_history` permission. -/
structure Channel where
  id : Nat
  guild : Nat
  read_message_history : Bool
deriving DecidableEq

/-- crawler.py lines 129-132 (`_channel_ok`): a channel is eligible when its
guild is tracked and history can be read. -/
def channel_ok (guilds : List Nat) (channel : Channel) : Bool :=
  if guilds.contains channel.guild then channel.read_message_history else false

/-- The history crawler's mutable state relevant to the topology hooks: the
in-memory progress dict (whose values may be Python `None`, hence
`Option Nat`) and the persisted `channel_crawl` rows. -/
structure HistoryState where
  progress : List (Channel × Option Nat)
  channel_crawl : List (Channel × Nat)
deriving DecidableEq

/-- crawler.py lines 182-186 (`_create_progress`): sets the in-memory entry
to Python `None` (not `0`), and inserts a store row with cursor `0` inside a
transaction that has no failing operation. -/
def create_progress (st : HistoryState) (channel : Channel) : HistoryState :=
  { progress := dictSet st.progress channel none,
    channel_crawl := st.channel_crawl ++ [(channel, 0)] }

/-- crawler.py lines 188-192 (`_delete_progress`). -/
def delete_progress (st : HistoryState) (channel : Channel) : HistoryState :=
  { progress := dictPop st.progress channel,
    channel_crawl := dictPop st.channel_crawl channel }

/-- crawler.py lines 194-199 (`_channel_create_hook`): bail out unless the
channel is eligible and not already tracked. -/
def channel_create_hook (guilds : List Nat) (st : HistoryState)
    (channel : Channel) : HistoryState :=
  if !channel_ok guilds channel || st.progress.any (fun p => decide (p.1 = channel))
  then st
  else create_progress st channel

/-- crawler.py line 210 tests `after.id in self.progress`: the dict is keyed
by channel objects, and in Python an integer id never compares equal to a
channel object, so the membership test is constantly false. -/
def int_eq_channel_key (_i : Nat) (_c : Channel) : Bool := false

/-- crawler.py lines 205-217 (`_channel_update_hook`): returns immediately
when `before` was not eligible; otherwise adds `after` when it is eligible
and the (id-keyed, always-false) membership test fails, or evicts it. -/
def channel_update_hook (guilds : List Nat) (st : HistoryState)
    (before after : Channel) : HistoryState :=
  if !channel_ok guilds before then st
  else if channel_ok guilds after then
    if st.progress.any (fun p => int_eq_channel_key after.id p.1) then st
    else create_progress st after
  else delete_progress st after

/-- The audit-log durable store: the persisted audit-log entries and the
`audit_log_crawl` cursor rows. -/
structure AuditStore where
  entries : List Event
  cursors : List (Source × Nat)
deriving DecidableEq

/-- Modelled from the spec: the repository's sql handler is not under src/.
Per the store contract of spec section 6, only calls made with the scoped
transaction handle commit or roll back with it; a call made without the
handle takes effect on the durable store directly and cannot be rolled back.
A transaction scope is therefore the durable base plus the pending
transaction-scoped cursor updates, which land only on commit. -/
structure AuditTrans where
  base : AuditStore
  pending_cursors : List (Source × Nat)

/-- Modelled from the spec: `insert_audit_log_entry(entry)` as invoked on the
store handle with no transaction argument (crawler.py line 249) — its effect
lands directly in the durable store. -/
def sql_insert_audit_log_entry (db : AuditStore) (entry : Event) : AuditStore :=
  { db with entries := db.entries ++ [entry] }

/-- crawler.py lines 246-249 (`AuditLogCrawler.write`): for each entry, call
`insert_audit_log_entry(entry)`; the `trans` parameter is never passed on. -/
def audit_write (tr : AuditTrans) (entries : List Event) : AuditTrans :=
  { tr with base := entries.foldl sql_insert_audit_log_entry tr.base }

/-- crawler.py lines 251-253 (`AuditLogCrawler.update`): persist the cursor
through the transaction handle; `ufail` selects whether the underlying store
call raises. -/
def audit_update (ufail : Bool) (tr : AuditTrans) (guild : Source)
    (last_id : Nat) : Except Unit AuditTrans :=
  if ufail then .error ()
  else .ok { tr with pending_cursors := dictSet tr.pending_cursors guild last_id }

/-- Modelled from the spec: committing a transaction applies its pending
cursor updates to the durable store. -/
def audit_commit (tr : AuditTrans) : AuditStore :=
  { tr.base with
    cursors := tr.pending_cursors.foldl (fun cs p => dictSet cs p.1 p.2) tr.base.cursors }

/-- crawler.py lines 115-123 as instantiated by `AuditLogCrawler`: one
consumer cycle over a work item, with `write` resolved to `audit_write` and
`update` to `audit_update ufail`.  On an error the transaction is abandoned:
pending cursor updates are dropped, while effects that bypassed the
transaction handle remain in the durable base. -/
def audit_consumer_step (ufail : Bool) (item : QueueItem) (db : AuditStore) :
    AuditStore :=
  match item.2.1 with
  | none =>
      match audit_update ufail { base := db, pending_cursors := [] } item.1 item.2.2 with
      | .ok tr2 => audit_commit tr2
      | .error _ => db
  | some evs =>
      match audit_update ufail (audit_write { base := db, pending_cursors := [] } evs)
          item.1 item.2.2 with
      | .ok tr2 => audit_commit tr2
      | .error _ => (audit_write { base := db, pending_cursors := [] } evs).base

/-- An interval of event ids.  Modelled from the spec: the `MultiRange`
class (src/statbot/range.py) is not under src/; per spec section 3 an
interval is `[start, end]` over the ordinal key space (`end` is a Lean
keyword, stored as `stop`). -/
structure Range where
  start : Nat
  stop : Nat
deriving DecidableEq

/-- Modelled from the spec: the minimum of interval `[start, end]`. -/
def Range.min (r : Range) : Nat := r.start

/-- Modelled from the spec: the maximum of interval `[start, end]`. -/
def Range.max (r : Range) : Nat := r.stop

/-- message_history.py lines 19-26: an ordered list of disjoint intervals
plus the optional origin marker `first`. -/
structure MessageHistory where
  ranges : List Range
  first : Option Nat
deriving DecidableEq

/-- message_history.py lines 31-35: the loop
`for range in reversed(self.ranges): if start > range.max(): break;
current = range.min()`, applied to the already-reversed list. -/
def hole_walk (start : Nat) : List Range → Nat → Nat
  | [], current => current
  | r :: rs, current => if start > r.max then current else hole_walk start rs r.min

/-- message_history.py lines 28-40 (`find_first_hole`): walk the intervals
from the most recent backward, then return `min(start, current)` when `first`
is `None` or `first < current`, and `None` otherwise. -/
def find_first_hole (h : MessageHistory) (start : Nat) : Option Nat :=
  let current := hole_walk start h.ranges.reverse start
  match h.first with
  | none => some (Nat.min start current)
  | some f => if f < current then some (Nat.min start current) else none

/-- Concrete read oracle for the monotonicity counterexample: at cursor 0 one
event with id 105 (created after process start, `NOW_ID = 100`) exists; at
any later cursor the stream is exhausted. -/
def read2 : ReadFn := fun _ c =>
  if c = 0 then .ok (some [Event.mk 105]) else .ok none

/-- Concrete read oracle for the delay-classification bug: source 0 is
exhausted, every other source yields an event. -/
def read4 : ReadFn := fun s _ =>
  if s = 0 then .ok none else .ok (some [Event.mk 100])

/-- Concrete read oracle whose source 0 always raises and whose other sources
are exhausted. -/
def read7 : ReadFn := fun s _ =>
  if s = 0 then .error () else .ok none

/-- Concrete read oracle returning an empty page (violating the hooks'
never-empty convention). -/
def readE : ReadFn := fun _ _ => .ok (some ([] : List Event))

/-- Concrete read oracle returning one event with id 5. -/
def readW2 : ReadFn := fun _ _ => .ok (some [Event.mk 5])

/-! Helper lemmas about the dictionary model and the producer fold. -/

theorem dictGet_dictSet_self {α β : Type} [DecidableEq α]
    (m : List (α × β)) (k : α) (v : β) : dictGet (dictSet m k v) k = some v := by
  induction m with
  | nil => simp [dictSet, dictGet]
  | cons p rest ih =>
      by_cases hp : p.1 = k
      · simp [dictSet, dictGet, hp]
      · simp [dictSet, dictGet, hp, ih]

theorem dictGet_dictSet_ne {α β : Type} [DecidableEq α]
    (m : List (α × β)) (k k2 : α) (v : β) (h : ¬ k = k2) :
    dictGet (dictSet m k v) k2 = dictGet m k2 := by
  have h2 : ¬ k2 = k := fun he => h he.symm
  induction m with
  | nil => simp [dictSet, dictGet, h]
  | cons p rest ih =>
      by_cases hp : p.1 = k
      · simp [dictSet, dictGet, hp, h]
      · by_cases hp2 : p.1 = k2
        · simp [dictSet, dictGet, hp, hp2, h2]
        · simp [dictSet, dictGet, hp, hp2, ih]

theorem le_foldl_max (l : List Event) (b : Nat) :
    b ≤ l.foldl (fun m x => Nat.max m x.id) b := by
  induction l generalizing b with
  | nil => exact Nat.le_refl b
  | cons x rest ih =>
      exact Nat.le_trans (Nat.le_max_left b x.id) (ih (Nat.max b x.id))

theorem get_last_id_gt (evs : List Event) (c m : Nat)
    (hall : ∀ e ∈ evs, c < e.id) (hm : get_last_id evs = some m) : c < m := by
  match evs with
  | [] => simp [get_last_id] at hm
  | e :: rest =>
      simp [get_last_id] at hm
      have h1 : c < e.id := hall e (List.mem_cons_self e rest)
      have h2 : e.id ≤ rest.foldl (fun a x => Nat.max a x.id) e.id :=
        le_foldl_max rest e.id
      omega

theorem get_last_id_isSome (evs : List Event) (h : ¬ evs = []) :
    (get_last_id evs).isSome = true := by
  match evs with
  | [] => exact absurd rfl h
  | e :: rest => simp [get_last_id]

theorem roundAux_erase (nowId : Nat) (read : ReadFn)
    (xs ys : List (Source × Nat)) (s : Source) (c : Nat)
    (h : ∀ acc, produceSource nowId read acc s c = acc)
    (acc : ProducerState × Bool) :
    producerRoundAux nowId read (xs ++ (s, c) :: ys) acc
      = producerRoundAux nowId read (xs ++ ys) acc := by
  unfold producerRoundAux
  rw [List.foldl_append, List.foldl_append, List.foldl_cons, h]

theorem produceSource_other (nowId : Nat) (read : ReadFn)
    (acc : ProducerState × Bool) (k : Source) (v : Nat) (s : Source)
    (hk : ¬ k = s) :
    dictGet (produceSource nowId read acc k v).1.progress s
        = dictGet acc.1.progress s
    ∧ ∀ q ∈ (produceSource nowId read acc k v).1.queue,
        q ∈ acc.1.queue ∨ ¬ q.1 = s := by
  cases hr : read k v with
  | error e =>
      simp only [produceSource, hr]
      exact ⟨trivial, fun q hq => Or.inl hq⟩
  | ok page =>
      cases page with
      | none =>
          simp only [produceSource, hr]
          refine ⟨dictGet_dictSet_ne _ k s nowId hk, fun q hq => ?_⟩
          rcases List.mem_append.mp hq with h1 | h1
          · exact Or.inl h1
          · right
            simp at h1
            rw [h1]
            exact hk
      | some events =>
          cases hl : get_last_id events with
          | none =>
              simp only [produceSource, hr, hl]
              exact ⟨trivial, fun q hq => Or.inl hq⟩
          | some last =>
              simp only [produceSource, hr, hl]
              refine ⟨dictGet_dictSet_ne _ k s last hk, fun q hq => ?_⟩
              rcases List.mem_append.mp hq with h1 | h1
              · exact Or.inl h1
              · right
                simp at h1
                rw [h1]
                exact hk

theorem roundAux_other_sources (nowId : Nat) (read : ReadFn) (s : Source)
    (snapshot : List (Source × Nat)) (acc : ProducerState × Bool)
    (hs : ∀ c2, ¬ (s, c2) ∈ snapshot) :
    dictGet (producerRoundAux nowId read snapshot acc).1.progress s
        = dictGet acc.1.progress s
    ∧ ∀ q ∈ (producerRoundAux nowId read snapshot acc).1.queue,
        q ∈ acc.1.queue ∨ ¬ q.1 = s := by
  induction snapshot generalizing acc with
  | nil => exact ⟨rfl, fun q hq => Or.inl hq⟩
  | cons p rest ih =>
      have hk : ¬ p.1 = s := by
        intro he
        exact hs p.2 (by rw [← he] at *; exact List.mem_cons_self _ _)
      have hrest : ∀ c2, ¬ (s, c2) ∈ rest := by
        intro c2 hmem
        exact hs c2 (List.mem_cons_of_mem p hmem)
      have hstep := produceSource_other nowId read acc p.1 p.2 s hk
      have hrec := ih (produceSource nowId read acc p.1 p.2) hrest
      have haux : producerRoundAux nowId read (p :: rest) acc
          = producerRoundAux nowId read rest (produceSource nowId read acc p.1 p.2) := by
        unfold producerRoundAux
        rw [List.foldl_cons]
      rw [haux]
      refine ⟨hrec.1.trans hstep.1, fun q hq => ?_⟩
      rcases hrec.2 q hq with h1 | h1
      · exact hstep.2 q h1
      · exact Or.inr h1

/-! Claim theorems. -/

/-- Claim C8: the pinned literal examples of `find_first_hole` hold on the
code: intervals `[[10,20]]` with `first = 0` give `find_first_hole 10 = 10`
(the oldest contiguous boundary reached), and the empty interval set with
`first = 5` gives `find_first_hole 100 = 100`. -/
theorem find_first_hole_pinned_examples :
    find_first_hole (MessageHistory.mk [Range.mk 10 20] (some 0)) 10 = some 10
    ∧ find_first_hole (MessageHistory.mk [] (some 5)) 100 = some 100 := by
  constructor <;> rfl

/-- Claim C3 (counterexample): with intervals `[[10,20]]` and `first = None`,
`find_first_hole 10` is not "no hole": the code returns `some 10`, refuting
the claim that an unset origin always yields `None`. -/
theorem first_none_hole_cex :
    find_first_hole (MessageHistory.mk [Range.mk 10 20] none) 10 = some 10
    ∧ ¬ find_first_hole (MessageHistory.mk [Range.mk 10 20] none) 10 = none := by
  constructor
  · rfl
  · intro h
    simp [find_first_hole, hole_walk, Range.max, Range.min] at h

/-- Claim C3 (amended): when the origin marker `first` is unset, the code
treats the situation as an open hole: `find_first_hole start` returns
`some (min start boundary)` where `boundary` is the walked contiguous
boundary, and the returned value never exceeds `start`; `None` is returned
only when `first` is set and is at least the walked boundary. -/
theorem first_none_returns_hole (h : MessageHistory) (start : Nat)
    (hf : h.first = none) :
    find_first_hole h start
        = some (Nat.min start (hole_walk start h.ranges.reverse start))
    ∧ ∀ v, find_first_hole h start = some v → v ≤ start := by
  constructor
  · unfold find_first_hole
    rw [hf]
  · intro v hv
    have h1 : find_first_hole h start
        = some (Nat.min start (hole_walk start h.ranges.reverse start)) := by
      unfold find_first_hole
      rw [hf]
    rw [h1] at hv
    injection hv with h2
    rw [← h2]
    exact Nat.min_le_left _ _

/-- Witness for `first_none_returns_hole` at a concrete interval set. -/
theorem first_none_returns_hole_witness :
    find_first_hole (MessageHistory.mk [] none) 9
      = some (Nat.min 9 (hole_walk 9 (List.reverse ([] : List Range)) 9)) :=
  (first_none_returns_hole (MessageHistory.mk [] none) 9 rfl).1

/-- Claim C7: a read error for one source leaves its progress entry and the
queue untouched and the round continues with the remaining sources: the round
over a snapshot containing the erroring pair equals the round over the
snapshot with that pair removed, and a source absent from the remaining
snapshot keeps its progress entry unchanged and has nothing enqueued for
it. -/
theorem read_error_skips_source (nowId : Nat) (read : ReadFn)
    (xs ys : List (Source × Nat)) (s : Source) (c : Nat)
    (h : read s c = .error ()) :
    (∀ acc, producerRoundAux nowId read (xs ++ (s, c) :: ys) acc
        = producerRoundAux nowId read (xs ++ ys) acc)
    ∧ ∀ (snapshot : List (Source × Nat)) (acc : ProducerState × Bool),
        (∀ c2, ¬ (s, c2) ∈ snapshot) →
        dictGet (producerRoundAux nowId read snapshot acc).1.progress s
            = dictGet acc.1.progress s
        ∧ ∀ q ∈ (producerRoundAux nowId read snapshot acc).1.queue,
            q ∈ acc.1.queue ∨ ¬ q.1 = s := by
  constructor
  · intro acc
    refine roundAux_erase nowId read xs ys s c (fun a => ?_) acc
    simp only [produceSource, h]
  · intro snapshot acc hs
    exact roundAux_other_sources nowId read s snapshot acc hs

/-- Witness for `read_error_skips_source`: source 0 raises and contributes
nothing while the round goes on with source 1. -/
theorem read_error_skips_source_witness :
    producerRoundAux 5 read7 ([] ++ (0, 4) :: [(1, 2)])
        (ProducerState.mk [(0, 4), (1, 2)] [], false)
      = producerRoundAux 5 read7 ([] ++ [(1, 2)])
        (ProducerState.mk [(0, 4), (1, 2)] [], false) :=
  (read_error_skips_source 5 read7 [] [(1, 2)] 0 4 rfl).1
    (ProducerState.mk [(0, 4), (1, 2)] [], false)

/-- Claim C9: `get_last_id` is undefined (raises, embedded as `none`) on an
empty collection and defined on any non-empty one; the history read hook
signals "no events" as `None` and never returns an empty page; and a read
implementation that does return an empty list makes the producer's cursor
computation raise, so the source's step is absorbed by the round's error
handler: the round equals the round with that source removed, leaving its
cursor unadvanced. -/
theorem get_last_id_empty_raises :
    get_last_id [] = none
    ∧ (∀ evs : List Event, ¬ evs = [] → (get_last_id evs).isSome = true)
    ∧ (∀ msgs : List Event, ¬ history_read msgs = some [])
    ∧ ∀ (nowId : Nat) (read : ReadFn) (xs ys : List (Source × Nat))
        (s : Source) (c : Nat) (acc : ProducerState × Bool),
        read s c = .ok (some []) →
        producerRoundAux nowId read (xs ++ (s, c) :: ys) acc
          = producerRoundAux nowId read (xs ++ ys) acc := by
  refine ⟨rfl, get_last_id_isSome, ?_, ?_⟩
  · intro msgs hcontra
    unfold history_read at hcontra
    by_cases hm : msgs.isEmpty
    · simp [hm] at hcontra
    · simp [hm] at hcontra
      rw [hcontra] at hm
      simp at hm
  · intro nowId read xs ys s c acc h
    refine roundAux_erase nowId read xs ys s c (fun a => ?_) acc
    simp only [produceSource, h, get_last_id]

/-- Witness for `get_last_id_empty_raises` with a concrete empty-page
read. -/
theorem get_last_id_empty_raises_witness :
    producerRoundAux 9 readE ([] ++ (0, 3) :: [])
        (ProducerState.mk [(0, 3)] [], false)
      = producerRoundAux 9 readE ([] ++ [])
        (ProducerState.mk [(0, 3)] [], false) :=
  get_last_id_empty_raises.2.2.2 9 readE [] [] 0 3
    (ProducerState.mk [(0, 3)] [], false) rfl

/-- Claim C10: the consumer calls `task_done` exactly once per dequeued item,
also when the transaction body raises (the exception is caught before the
`task_done` call), so processing any list of items yields exactly one
`task_done` per item. -/
theorem task_done_exactly_once (w : WriteFn) (u : UpdateFn) :
    (∀ (item : QueueItem) (st : Store), (consumerStep w u item st).2 = 1)
    ∧ ∀ (items : List QueueItem) (st : Store),
        (consumerRun w u items st).2 = items.length := by
  have hstep : ∀ (item : QueueItem) (st : Store),
      (consumerStep w u item st).2 = 1 := by
    intro item st
    cases htr : (transBody w u item st).1 <;> simp [consumerStep, htr]
  refine ⟨hstep, ?_⟩
  intro items
  induction items with
  | nil => intro st; rfl
  | cons item rest ih =>
      intro st
      simp only [consumerRun]
      rw [hstep, ih]
      simp [Nat.add_comm]

/-- Claim C1: for each dequeued item the consumer runs one transaction body
in which `write` is called iff the item's events are present; `update` with
the item's carried cursor is called in that same transaction whenever events
are absent and whenever the body completes without error, and a completed
transaction commits exactly the body's resulting store; on any error the
transaction is abandoned with no partial commit — the store is unchanged —
and the consumer continues with the remaining queue items without retrying
the failed one (one `task_done` is still issued). -/
theorem consumer_atomic_write_update (w : WriteFn) (u : UpdateFn)
    (item : QueueItem) (st : Store) :
    ((∃ evs, SqlCall.write evs ∈ (transBody w u item st).2)
        ↔ (item.2.1).isSome = true)
    ∧ (item.2.1 = none →
        SqlCall.update item.1 item.2.2 ∈ (transBody w u item st).2)
    ∧ (∀ st1, (transBody w u item st).1 = Except.ok st1 →
        SqlCall.update item.1 item.2.2 ∈ (transBody w u item st).2
        ∧ consumerStep w u item st = (st1, 1))
    ∧ (∀ e, (transBody w u item st).1 = Except.error e →
        consumerStep w u item st = (st, 1)
        ∧ ∀ rest, consumerRun w u (item :: rest) st
            = ((consumerRun w u rest st).1, 1 + (consumerRun w u rest st).2)) := by
  obtain ⟨s, page, c⟩ := item
  cases page with
  | none =>
      refine ⟨?_, ?_, ?_, ?_⟩
      · simp [transBody]
      · intro _
        simp [transBody]
      · intro st1 h1
        simp only [transBody] at h1 ⊢
        exact ⟨by simp, by simp [consumerStep, transBody, h1]⟩
      · intro e h1
        simp only [transBody] at h1
        have hstep : consumerStep w u (s, none, c) st = (st, 1) := by
          simp [consumerStep, transBody, h1]
        exact ⟨hstep, fun rest => by simp [consumerRun, hstep]⟩
  | some evs =>
      cases hw : w st evs with
      | error e0 =>
          refine ⟨?_, ?_, ?_, ?_⟩
          · simp [transBody, hw]
          · intro h1
            simp at h1
          · intro st1 h1
            simp [transBody, hw] at h1
          · intro e h1
            have hstep : consumerStep w u (s, some evs, c) st = (st, 1) := by
              simp [consumerStep, transBody, hw]
            exact ⟨hstep, fun rest => by simp [consumerRun, hstep]⟩
      | ok st1 =>
          refine ⟨?_, ?_, ?_, ?_⟩
          · simp [transBody, hw]
          · intro h1
            simp at h1
          · intro st2 h2
            simp only [transBody, hw] at h2 ⊢
            exact ⟨by simp, by simp [consumerStep, transBody, hw, h2]⟩
          · intro e h2
            simp only [transBody, hw] at h2
            have hstep : consumerStep w u (s, some evs, c) st = (st, 1) := by
              simp [consumerStep, transBody, hw, h2]
            exact ⟨hstep, fun rest => by simp [consumerRun, hstep]⟩

/-- Witness for `consumer_atomic_write_update`: with an `update` hook that
always raises, the failed item leaves the store untouched. -/
theorem consumer_atomic_write_update_witness :
    consumerStep storeWrite failUpdate (0, some [Event.mk 1], 5)
        (Store.mk [] []) = (Store.mk [] [], 1) :=
  ((consumer_atomic_write_update storeWrite failUpdate
      (0, some [Event.mk 1], 5) (Store.mk [] [])).2.2.2 () rfl).1

/-- Claim C2 (amended): a producer step for a source at cursor `c` is
non-decreasing provided `c` has not passed the drained sentinel: if
`c ≤ nowId` and any page read at `c` contains only events with ids above `c`
(the remote contract), then every item the step enqueues carries a cursor
`≥ c`, and the source's progress entry after the step is either exactly what
it already was or `≥ c`.  Unconditional monotonicity fails — see
`cursor_monotonicity_cex`, where a cursor already past the import-time
`NOW_ID` is reset to it by an empty read. -/
theorem producer_step_monotone (nowId : Nat) (read : ReadFn)
    (acc : ProducerState × Bool) (s : Source) (c : Nat)
    (hnow : c ≤ nowId)
    (hafter : ∀ evs, read s c = .ok (some evs) → ∀ e ∈ evs, c < e.id) :
    (∀ q ∈ (produceSource nowId read acc s c).1.queue,
        q ∈ acc.1.queue ∨ c ≤ q.2.2)
    ∧ ∀ v, dictGet (produceSource nowId read acc s c).1.progress s = some v →
        dictGet acc.1.progress s = some v ∨ c ≤ v := by
  cases hr : read s c with
  | error e =>
      simp only [produceSource, hr]
      exact ⟨fun q hq => Or.inl hq, fun v hv => Or.inl hv⟩
  | ok page =>
      cases page with
      | none =>
          simp only [produceSource, hr]
          constructor
          · intro q hq
            rcases List.mem_append.mp hq with h1 | h1
            · exact Or.inl h1
            · right
              simp at h1
              rw [h1]
              exact hnow
          · intro v hv
            rw [dictGet_dictSet_self] at hv
            right
            injection hv with h2
            omega
      | some events =>
          cases hl : get_last_id events with
          | none =>
              simp only [produceSource, hr, hl]
              exact ⟨fun q hq => Or.inl hq, fun v hv => Or.inl hv⟩
          | some last =>
              have hlast : c < last :=
                get_last_id_gt events c last (hafter events hr) hl
              simp only [produceSource, hr, hl]
              constructor
              · intro q hq
                rcases List.mem_append.mp hq with h1 | h1
                · exact Or.inl h1
                · right
                  simp at h1
                  rw [h1]
                  exact Nat.le_of_lt hlast
              · intro v hv
                rw [dictGet_dictSet_self] at hv
                right
                injection hv with h2
                omega

/-- Witness for `producer_step_monotone` at a concrete read. -/
theorem producer_step_monotone_witness :
    dictGet (ProducerState.mk [(0, 2)] []).progress 0 = some 5 ∨ 2 ≤ 5 :=
  (producer_step_monotone 3 readW2 (ProducerState.mk [(0, 2)] [], false) 0 2
      (by decide)
      (fun evs h e he => by
        simp [readW2] at h
        subst h
        simp at he
        rw [he]
        decide)).2 5 (by decide)

/-- Claim C2 (counterexample): with `NOW_ID = 100` fixed at startup, a source
whose page contains an event created after startup (id 105) gets cursor 105
committed; the next round's read is empty, so the producer enqueues the stale
sentinel 100 and the consumer commits it — the persisted cursor for the
source decreases from 105 to 100, refuting unconditional monotonicity. -/
theorem cursor_monotonicity_cex :
    (consumerRun storeWrite storeUpdate
        (producerRound 100 read2 (ProducerState.mk [(0, 0)] [])).1.queue
        (Store.mk [] [])).1.cursors = [(0, 105)]
    ∧ (consumerRun storeWrite storeUpdate
        (producerRound 100 read2
          (ProducerState.mk
            (producerRound 100 read2 (ProducerState.mk [(0, 0)] [])).1.progress
            [])).1.queue
        (consumerRun storeWrite storeUpdate
          (producerRound 100 read2 (ProducerState.mk [(0, 0)] [])).1.queue
          (Store.mk [] [])).1).1.cursors = [(0, 100)]
    ∧ 100 < 105 := by
  exact ⟨rfl, rfl, by decide⟩

/-- Claim C4 (code bug): in a round over sources 0 (exhausted) and 1
(returning an event), the code ends with `done = true` and sleeps the long
empty-source delay (here 60) although source 1 produced events — the long
delay is applied when any source is exhausted, not only when every source
is. -/
theorem producer_delay_any_exhausted :
    (producerRound 50 read4 (ProducerState.mk [(0, 5), (1, 7)] [])).2 = true
    ∧ roundDelay (Config.mk 1 60)
        (producerRound 50 read4 (ProducerState.mk [(0, 5), (1, 7)] [])).2 = 60
    ∧ ¬ (Config.mk 1 60).yield_delay = 60
    ∧ (∃ q ∈ (producerRound 50 read4
          (ProducerState.mk [(0, 5), (1, 7)] [])).1.queue,
        (q.2.1).isSome = true) := by
  decide

/-- Claim C5 (code bug): with tracked guilds `[1]`, the update hook invoked
for a channel that was ineligible before (no read permission) and eligible
after returns with the state untouched — the newly eligible channel is never
promoted into tracking; and the create hook on a new eligible channel inserts
the in-memory progress entry with Python `None` instead of cursor `0`, while
the store row does get cursor `0`. -/
theorem channel_hooks_divergence :
    channel_update_hook [1] (HistoryState.mk [] []) (Channel.mk 7 1 false)
        (Channel.mk 7 1 true) = HistoryState.mk [] []
    ∧ channel_ok [1] (Channel.mk 7 1 true) = true
    ∧ (channel_create_hook [1] (HistoryState.mk [] [])
        (Channel.mk 8 1 true)).progress = [(Channel.mk 8 1 true, none)]
    ∧ (channel_create_hook [1] (HistoryState.mk [] [])
        (Channel.mk 8 1 true)).channel_crawl = [(Channel.mk 8 1 true, 0)] := by
  exact ⟨rfl, rfl, rfl, rfl⟩

/-- Claim C6 (code bug): `AuditLogCrawler.write` never passes the transaction
handle to `insert_audit_log_entry`, so the page's entries are persisted
outside the transaction scope: when the consumer's transaction for the item
`(guild 1, entries [id 42], cursor 7)` is abandoned because `update` raises,
the entry is nevertheless committed while the cursor stays at its old
value. -/
theorem audit_write_outside_transaction :
    (audit_consumer_step true (1, some [Event.mk 42], 7)
        (AuditStore.mk [] [(1, 0)])).entries = [Event.mk 42]
    ∧ (audit_consumer_step true (1, some [Event.mk 42], 7)
        (AuditStore.mk [] [(1, 0)])).cursors = [(1, 0)] := by
  exact ⟨rfl, rfl⟩

end Statbot
